import Mathlib

/-
Shallow embedding of the public-transportation network system (`main.py`,
class `TransportNetwork`) and proofs about its routing operations.

Modelling decisions, in brief:
* Station identifiers and transport types are `String`s; travel times and
  preference multipliers are `ℚ` (Python ints/floats, exact here).
* The `networkx.MultiGraph` state is a `Network` record: the node list (in
  insertion order, as networkx keeps nodes in a dict), the fixed set of valid
  transport types, the list of connections in global insertion order, and the
  station-capacity table.  Iterating the parallel edges of a pair
  (`self.network[u][v]`) yields per-pair keys in insertion order, which equals
  the global insertion order filtered to that pair; `connectionsBetween`
  reproduces that.
* Connection schedules are opaque per-edge metadata never read by routing;
  `none` stands for the externally generated default schedule
  (`_generate_schedule`, out of scope per the spec).  Station coordinates are
  likewise decorative (their default uses `random.random()`) and are omitted.
* Exceptions are modelled as `Except String` / `Option String` values carrying
  the message; a raising method returns the unchanged pre-state alongside the
  error, matching Python's raise-before-mutation order.
* The metric helpers `_calculate_total_time` and `_count_transfers` subscript
  `self.network[u][v]`, which raises `KeyError` when the pair `u, v` has no
  edge between it (or an endpoint is not a node); the escaping exception is
  modelled by an `Option` result, `none` standing for the raise.  Their loop
  bodies run only on pairs that survived the subscript, i.e. pairs holding at
  least one connection.
-/

structure Connection where
  cstart : String
  cend : String
  transport_type : String
  travel_time : ℚ
  schedule : Option (List String)
  deriving DecidableEq

structure Network where
  nodeList : List String
  transport_types : List String
  connections : List Connection
  station_capacity : List (String × ℤ)
  deriving DecidableEq

/-- The freshly constructed `TransportNetwork.__init__` state: no nodes, the
transport-type set Metro, Bus, Train, no edges, no capacities. -/
def Network.empty : Network :=
  { nodeList := [], transport_types := ["Metro", "Bus", "Train"],
    connections := [], station_capacity := [] }

/-- Adding a node to a networkx graph: appended if new, kept in place if
already present. -/
def insertNode (l : List String) (x : String) : List String :=
  if x ∈ l then l else l ++ [x]

/-- Python dict assignment `d[k] = v`: replace in place, else append. -/
def updateAssoc : List (String × ℤ) → String → ℤ → List (String × ℤ)
  | [], k, v => [(k, v)]
  | (k0, v0) :: rest, k, v =>
    if k0 = k then (k, v) :: rest else (k0, v0) :: updateAssoc rest k v

/-- `TransportNetwork.add_station`: insert (or overwrite) a station node and
record its capacity.  No error conditions. -/
def add_station (net : Network) (station_id : String) (capacity : ℤ) : Network :=
  { net with
    nodeList := insertNode net.nodeList station_id,
    station_capacity := updateAssoc net.station_capacity station_id capacity }

/-- `TransportNetwork.add_connection`: raise when the transport type is not in
the valid set (pre-state returned unchanged beside the message), otherwise add
a fresh parallel edge; `add_edge` silently creates missing endpoint nodes. -/
def add_connection (net : Network) (s e transport_type : String)
    (travel_time : ℚ) (schedule : Option (List String)) :
    Network × Option String :=
  if transport_type ∈ net.transport_types then
    ({ net with
       nodeList := insertNode (insertNode net.nodeList s) e,
       connections := net.connections ++
         [⟨s, e, transport_type, travel_time, schedule⟩] }, none)
  else
    (net, some "Invalid transport type. Must be one of Metro, Bus, Train")

/-- All parallel connections between the unordered pair `u, v`, in insertion
order — the iteration order of `self.network[u][v]` on a `MultiGraph`. -/
def connectionsBetween (net : Network) (u v : String) : List Connection :=
  net.connections.filter fun c =>
    (c.cstart == u && c.cend == v) || (c.cstart == v && c.cend == u)

/-- One step of the Python `min_weight = min(min_weight, w)` accumulation; the
`none` accumulator models the `float('inf')` starting value. -/
def optMinStep (acc : Option ℚ) (t : ℚ) : Option ℚ :=
  some (match acc with | none => t | some m => min m t)

/-- The inner `weight_function(u, v, attrs)` closure of `find_optimal_route`:
minimum over the parallel connections of `travel_time * preferences.get(type, 1)`,
falling back to `1` when no connection carries transport data (unreachable for
networks built through the class API, where every edge is populated). -/
def weight_function (net : Network) (preferences : String → Option ℚ)
    (u v : String) : ℚ :=
  match (connectionsBetween net u v).foldl
      (fun acc c => optMinStep acc
        (c.travel_time * (preferences c.transport_type).getD 1)) none with
  | some m => m
  | none => 1

/-- Transport type the inner `_count_transfers` loop attributes to a hop
whose subscript succeeded: it scans the pair's parallel edges in key order and
breaks at the first truthy `transport_type` (the empty string is falsy in
Python, hence the filter); `none` when every type is falsy, in which case the
subsequent `if current_transport and ...` test fails.  `count_transfers`
consults this only after checking the pair is non-empty, mirroring the
subscript-then-loop order of the source. -/
def hopTransport (net : Network) (u v : String) : Option String :=
  ((connectionsBetween net u v).map fun c => c.transport_type).find?
    fun t => !(t == "")

/-- Per-hop term of `_calculate_total_time` for a pair whose subscript
succeeded: minimum `travel_time` among its parallel connections.  The `none`
branch mirrors the `min_time if min_time != float('inf') else 0` guard of the
source; like that guard it is unreachable through the class API — it would
need an adjacent edge lacking the `travel_time` attribute, and in this
embedding every connection carries one — while a pair with no connections at
all never reaches this point, the subscript having raised first (see
`calculate_total_time`). -/
def hopMinTime (net : Network) (u v : String) : ℚ :=
  match ((connectionsBetween net u v).map fun c => c.travel_time).foldl
      optMinStep none with
  | some m => m
  | none => 0

/-- `TransportNetwork._calculate_total_time`: walk the consecutive pairs of
the path in order, subscript each pair and add its minimum raw travel time.
The subscript `self.network[path[i]][path[i + 1]]` raises `KeyError` when the
pair has no connection (or an endpoint is not even a node), aborting the whole
call: `none` models that escaping exception.  A path with fewer than two
stations performs no subscript and returns 0. -/
def calculate_total_time (net : Network) : List String → Option ℚ
  | a :: b :: rest =>
    if (connectionsBetween net a b).isEmpty then none
    else (calculate_total_time net (b :: rest)).map
      fun t => hopMinTime net a b + t
  | _ => some 0

/-- `TransportNetwork._count_transfers`: for every window of three consecutive
stations, subscript the two hops — `KeyError`, modelled as `none`, when either
pair holds no connection — then compare the transport types the inner loops
attribute to them and count a transfer when both are truthy and differ.  The
windows of a length-`n` path cover every consecutive pair when `n ≥ 3`; a path
of length at most 2 has no window, performs no subscript at all, and returns
0 even on pairs with no connection. -/
def count_transfers (net : Network) : List String → Option ℕ
  | a :: b :: c :: rest =>
    if (connectionsBetween net a b).isEmpty then none
    else if (connectionsBetween net b c).isEmpty then none
    else (count_transfers net (b :: c :: rest)).map
      fun n =>
        (match hopTransport net a b, hopTransport net b c with
         | some t1, some t2 => if t1 ≠ t2 then 1 else 0
         | _, _ => 0) + n
  | _ => some 0

/-- Earliest minimum-first-component element of a weighted list (ties keep the
earlier entry). -/
def selectMin {α : Type} : List (ℚ × α) → Option (ℚ × α)
  | [] => none
  | e :: es =>
    some (match selectMin es with
          | none => e
          | some m => if m.1 < e.1 then m else e)

/-- Consecutive pairs of a path, in order. -/
def hops (p : List String) : List (String × String) := p.zip p.tail

/-- Transfer count described by the spec, parameterised by the rule that picks
the transport type of a hop: one transfer per interior station where the
arriving and departing types are both determined and differ. -/
def transfersSpec (sel : Network → String → String → Option String)
    (net : Network) (p : List String) : ℕ :=
  ((hops p).zip (hops p).tail).countP fun x =>
    match sel net x.1.1 x.1.2, sel net x.2.1 x.2.2 with
    | some t1, some t2 => decide (t1 ≠ t2)
    | _, _ => false

/-- Hop-type rule written from the spec's words for `count_transfers`: the
transport type of whichever parallel connection has minimum travel time
(earliest such connection under ties). -/
def minTimeTransport (net : Network) (u v : String) : Option String :=
  (selectMin ((connectionsBetween net u v).map
    fun c => (c.travel_time, c.transport_type))).map fun m => m.2

/-- Total time described by the spec: over each consecutive pair, the minimum
raw `travel_time` among its parallel connections, `0` when there are none. -/
def totalTimeSpec (net : Network) (p : List String) : ℚ :=
  ((hops p).map fun x =>
    (((connectionsBetween net x.1 x.2).map fun c => c.travel_time).min?).getD 0).sum

/-- Construction operations of the network-building API. -/
inductive Op
  | addStation (station_id : String) (capacity : ℤ)
  | addConnection (s e transport_type : String) (travel_time : ℚ)
      (schedule : Option (List String))
  deriving DecidableEq

/-- Run a sequence of construction operations; a failing `add_connection`
leaves the state unchanged (the exception is raised before any mutation). -/
def runOps : Network → List Op → Network
  | net, [] => net
  | net, Op.addStation station_id cap :: rest =>
    runOps (add_station net station_id cap) rest
  | net, Op.addConnection s e ty tt sch :: rest =>
    runOps (add_connection net s e ty tt sch).1 rest

/-- Stations adjacent to `u`: those sharing at least one connection with it. -/
def neighbors (net : Network) (u : String) : List String :=
  net.nodeList.filter fun v => !(connectionsBetween net u v).isEmpty

/-- Modelled from the spec: the `nx.shortest_path` call inside
`find_optimal_route` lives in the external networkx library, not in this
repository; section 4.2 describes it as a Dijkstra-style single-source
shortest-path search over the per-hop minimum-parallel-edge weights, with a
tie-break that is not load-bearing.  A frontier entry `(d, u, rest)` is a
discovered route of weight `d` ending at `u` with the earlier stations in
`rest` (latest first); each round pops the cheapest entry whose endpoint is
still unvisited, stops when it pops the target, and otherwise relaxes all
neighbours.  The fuel argument (instantiated with the node count) only makes
the recursion structural; it never runs out, since every round consumes one
unvisited node. -/
def dijkstraLoop (net : Network) (preferences : String → Option ℚ)
    (target : String) :
    ℕ → List String → List (ℚ × String × List String) → Option (List String)
  | 0, _, _ => none
  | fuel + 1, unvisited, frontier =>
    match selectMin (frontier.filter fun en => decide (en.2.1 ∈ unvisited)) with
    | none => none
    | some (d, u, rest) =>
      if u = target then some ((u :: rest).reverse)
      else
        dijkstraLoop net preferences target fuel (unvisited.erase u)
          (frontier ++ (neighbors net u).map
            fun v => (d + weight_function net preferences u v, v, u :: rest))

/-- The default preference table `{'Metro': 1, 'Bus': 1.5, 'Train': 1.2}`. -/
def defaultPreferences : String → Option ℚ := fun t =>
  if t = "Metro" then some 1
  else if t = "Bus" then some (3 / 2)
  else if t = "Train" then some (6 / 5)
  else none

/-- Packaging step of `find_optimal_route`'s success path: the two metric
helpers are called on the returned path; only `nx.NetworkXNoPath` is caught,
so a `KeyError` escaping either helper (`none`) would propagate to the caller,
modelled as a distinct error value — provably unreachable, since every
returned path is a chain. -/
def packageRoute (net : Network) (path : List String) :
    Except String (List String × ℚ × ℕ) :=
  match calculate_total_time net path, count_transfers net path with
  | some t, some tr => Except.ok (path, t, tr)
  | _, _ => Except.error "KeyError"

/-- `TransportNetwork.find_optimal_route`: reject unknown endpoints, run the
weighted shortest-path search (modelled above), and package the path with the
independently recomputed total time and transfer count; a fruitless search
surfaces as the no-path error.  Only `nx.NetworkXNoPath` is caught, so a
`KeyError` escaping a metric helper would propagate to the caller — modelled
as a distinct error value; it is provably unreachable, since every returned
path is a chain.  The undocumented `time` argument is accepted and never read,
exactly as in the Python signature. -/
def find_optimal_route (net : Network) (s e : String) (time : Option String)
    (preferences : Option (String → Option ℚ)) :
    Except String (List String × ℚ × ℕ) :=
  if s ∉ net.nodeList ∨ e ∉ net.nodeList then
    Except.error "Start or end station not found in network"
  else
    match dijkstraLoop net (preferences.getD defaultPreferences) e
        net.nodeList.length net.nodeList [(0, s, [])] with
    | some path => packageRoute net path
    | none => Except.error ("No path found between " ++ s ++ " and " ++ e)

/-- A path is a chain when every consecutive pair shares a connection. -/
def isChain (net : Network) : List String → Bool
  | a :: b :: rest => !(connectionsBetween net a b).isEmpty && isChain net (b :: rest)
  | _ => true

/-- Some sequence of connections links `u` to `w`. -/
inductive Reachable (net : Network) : String → String → Prop
  | refl (u : String) : Reachable net u u
  | step {u v w : String} : connectionsBetween net u v ≠ [] →
      Reachable net v w → Reachable net u w

/-- Reachability through stations drawn from `S` only. -/
inductive RWithin (net : Network) (S : List String) : String → String → Prop
  | refl (u : String) (h : u ∈ S) : RWithin net S u u
  | step {u v w : String} (h : u ∈ S) (hc : connectionsBetween net u v ≠ []) :
      RWithin net S v w → RWithin net S u w

/-- Invariant of a frontier entry `(d, u, rest)`: `(u :: rest).reverse` walks
the graph from the search source `s` to `u`. -/
inductive RevChain (net : Network) (s : String) : String → List String → Prop
  | nil : RevChain net s s []
  | cons {u v : String} {rest : List String} :
      RevChain net s u rest → connectionsBetween net u v ≠ [] →
      RevChain net s v (u :: rest)

/-- Every connection's endpoints are nodes of the network; true of every state
the construction API can produce. -/
def WFNet (net : Network) : Prop :=
  ∀ c ∈ net.connections, c.cstart ∈ net.nodeList ∧ c.cend ∈ net.nodeList

/-- Stations known to the network built from `ops` relative to the valid
transport-type set: explicitly added, or an endpoint of a connection that was
actually recorded. -/
def mentionedT (types : List String) (ops : List Op) (x : String) : Bool :=
  ops.any fun op =>
    match op with
    | Op.addStation station_id _ => station_id == x
    | Op.addConnection a b ty _ _ =>
      decide (ty ∈ types) && (a == x || b == x)

/-- Stations known to the network built from scratch by `ops`. -/
def mentioned (ops : List Op) (x : String) : Bool :=
  mentionedT ["Metro", "Bus", "Train"] ops x

/-- Same unordered station pair and same transport type, on raw keys. -/
def samePairTypeKeys (a b ty a2 b2 ty2 : String) : Bool :=
  ((a == a2 && b == b2) || (a == b2 && b == a2)) && ty == ty2

/-- At most one connection per unordered pair and transport type: no two
recorded connections share both. -/
def noDup : List Connection → Bool
  | [] => true
  | c :: cs =>
    cs.all (fun d => !samePairTypeKeys c.cstart c.cend c.transport_type
      d.cstart d.cend d.transport_type) && noDup cs

/-- The connection a construction operation records, if any: `add_station`
records none, and `add_connection` records one exactly when its transport type
is in `types`. -/
def opConn (types : List String) : Op → Option Connection
  | Op.addStation _ _ => none
  | Op.addConnection s e ty tt sch =>
    if ty ∈ types then some ⟨s, e, ty, tt, sch⟩ else none

/-- Connections recorded by a sequence of operations, in order. -/
def opsConns (types : List String) (ops : List Op) : List Connection :=
  ops.filterMap (opConn types)

/-- No two `add_connection` operations in the list target the same unordered
station pair with the same transport type. -/
def opsNoDup : List Op → Bool
  | [] => true
  | Op.addStation _ _ :: rest => opsNoDup rest
  | Op.addConnection a b ty _ _ :: rest =>
    (rest.all fun op2 =>
      match op2 with
      | Op.addStation _ _ => true
      | Op.addConnection a2 b2 ty2 _ _ => !samePairTypeKeys a b ty a2 b2 ty2) &&
    opsNoDup rest

/-- Two stations joined by a Metro connection of travel time 10 and a Bus
connection of travel time 8 — the parallel-edge preference-sensitivity
scenario of the spec. -/
def c4ops : List Op :=
  [Op.addStation "A" 100, Op.addStation "B" 100,
   Op.addConnection "A" "B" "Metro" 10 none,
   Op.addConnection "A" "B" "Bus" 8 none]

def c4net : Network := runOps Network.empty c4ops

/-- The preferences Metro ↦ 1.0, Bus ↦ 2.0 of that scenario. -/
def c4prefs : String → Option ℚ := fun t =>
  if t = "Metro" then some 1 else if t = "Bus" then some 2 else none

/-- A network where the first-inserted parallel connection of the hop A–B
(Bus, time 10) differs in type from its minimum-travel-time connection
(Metro, time 5), while the hop B–C is Metro-only. -/
def c1ops : List Op :=
  [Op.addConnection "A" "B" "Bus" 10 none,
   Op.addConnection "A" "B" "Metro" 5 none,
   Op.addConnection "B" "C" "Metro" 7 none]

def c1net : Network := runOps Network.empty c1ops

/-- Two identically typed connections on the same pair. -/
def c9ops : List Op :=
  [Op.addConnection "A" "B" "Metro" 5 none,
   Op.addConnection "A" "B" "Metro" 7 none]

/-- The sample network of `create_sample_network`. -/
def sampleOps : List Op :=
  [Op.addStation "Ramsis_square" 1000, Op.addStation "North" 500,
   Op.addStation "South" 500, Op.addStation "East" 300,
   Op.addStation "West" 300, Op.addStation "Airport" 800,
   Op.addConnection "Ramsis_square" "North" "Metro" 21 none,
   Op.addConnection "Ramsis_square" "South" "Metro" 20 none,
   Op.addConnection "Ramsis_square" "Airport" "Train" 24 none,
   Op.addConnection "North" "East" "Bus" 30 none,
   Op.addConnection "South" "West" "Bus" 25 none,
   Op.addConnection "East" "Airport" "Bus" 30 none,
   Op.addConnection "West" "Airport" "Train" 25 none]

def sampleNet : Network := runOps Network.empty sampleOps

instance {e a : Type} [DecidableEq e] [DecidableEq a] : DecidableEq (Except e a) :=
  fun x y =>
    match x, y with
    | Except.ok u, Except.ok v =>
      if h : u = v then isTrue (by rw [h])
      else isFalse (by intro hc; cases hc; exact h rfl)
    | Except.error u, Except.error v =>
      if h : u = v then isTrue (by rw [h])
      else isFalse (by intro hc; cases hc; exact h rfl)
    | Except.ok _, Except.error _ => isFalse (by intro hc; cases hc)
    | Except.error _, Except.ok _ => isFalse (by intro hc; cases hc)

theorem foldl_optMin_some (l : List ℚ) :
    ∀ a : ℚ, l.foldl optMinStep (some a) = some (l.foldl min a) := by
  induction l with
  | nil => intro a; rfl
  | cons x xs ih =>
    intro a
    simp only [List.foldl, optMinStep]
    exact ih (min a x)

theorem foldl_optMin_none (l : List ℚ) : l.foldl optMinStep none = l.min? := by
  cases l with
  | nil => rfl
  | cons x xs =>
    simp only [List.foldl, optMinStep, List.min?]
    exact foldl_optMin_some xs x

theorem hopMinTime_eq_getD (net : Network) (u v : String) :
    hopMinTime net u v =
      (((connectionsBetween net u v).map fun c => c.travel_time).min?).getD 0 := by
  unfold hopMinTime
  rw [foldl_optMin_none]
  cases ((connectionsBetween net u v).map fun c => c.travel_time).min? <;> rfl

theorem hops_cons (a b : String) (rest : List String) :
    hops (a :: b :: rest) = (a, b) :: hops (b :: rest) := by
  simp [hops]

theorem transfersSpec_cons (sel : Network → String → String → Option String)
    (net : Network) (a b c : String) (rest : List String) :
    transfersSpec sel net (a :: b :: c :: rest) =
      (if (match sel net a b, sel net b c with
           | some t1, some t2 => decide (t1 ≠ t2)
           | _, _ => false) = true then 1 else 0) +
      transfersSpec sel net (b :: c :: rest) := by
  unfold transfersSpec
  rw [hops_cons a b (c :: rest), hops_cons b c rest]
  rw [show ((a, b) :: (b, c) :: hops (c :: rest)).tail
        = (b, c) :: hops (c :: rest) from rfl]
  rw [List.zip_cons_cons, List.countP_cons, Nat.add_comm]
  rfl

theorem transfersSpec_short (sel : Network → String → String → Option String)
    (net : Network) (p : List String) (h : p.length ≤ 2) :
    transfersSpec sel net p = 0 := by
  match p with
  | [] => rfl
  | [a] => rfl
  | [a, b] => rfl
  | a :: b :: c :: rest =>
    exfalso
    simp only [List.length_cons] at h
    omega

theorem calculate_total_time_char (net : Network) (p : List String) :
    calculate_total_time net p
      = if isChain net p = true then some (totalTimeSpec net p) else none := by
  induction p with
  | nil =>
    rw [if_pos (show isChain net [] = true from rfl)]
    rfl
  | cons a tail ih =>
    cases tail with
    | nil =>
      rw [if_pos (show isChain net [a] = true from rfl)]
      rfl
    | cons b rest =>
      show (if (connectionsBetween net a b).isEmpty then none
            else (calculate_total_time net (b :: rest)).map
              fun t => hopMinTime net a b + t)
          = _
      by_cases hab : (connectionsBetween net a b).isEmpty = true
      · rw [if_pos hab]
        have hchain : isChain net (a :: b :: rest) = false := by
          show (!(connectionsBetween net a b).isEmpty
                && isChain net (b :: rest)) = false
          rw [hab]
          rfl
        rw [hchain]
        rfl
      · have hab2 : (connectionsBetween net a b).isEmpty = false :=
          Bool.eq_false_iff.mpr hab
        rw [if_neg hab, ih]
        by_cases hrest : isChain net (b :: rest) = true
        · rw [if_pos hrest]
          have hchain : isChain net (a :: b :: rest) = true := by
            show (!(connectionsBetween net a b).isEmpty
                  && isChain net (b :: rest)) = true
            rw [hab2, hrest]
            rfl
          rw [if_pos hchain, Option.map_some', hopMinTime_eq_getD]
          rw [show totalTimeSpec net (a :: b :: rest)
                = (((connectionsBetween net a b).map
                    fun c => c.travel_time).min?).getD 0
                  + totalTimeSpec net (b :: rest) from by
            unfold totalTimeSpec
            rw [hops_cons, List.map_cons, List.sum_cons]]
        · rw [if_neg hrest]
          have hchain : isChain net (a :: b :: rest) = false := by
            show (!(connectionsBetween net a b).isEmpty
                  && isChain net (b :: rest)) = false
            rw [Bool.eq_false_iff.mpr hrest, Bool.and_false]
          rw [hchain]
          rfl

theorem count_transfers_char (net : Network) (p : List String) :
    count_transfers net p
      = if isChain net p = true ∨ p.length ≤ 2
        then some (transfersSpec hopTransport net p) else none := by
  induction p with
  | nil =>
    rw [if_pos (Or.inr (by simp))]
    rfl
  | cons a tail ih =>
    cases tail with
    | nil =>
      rw [if_pos (Or.inr (by simp))]
      rfl
    | cons b rest2 =>
      cases rest2 with
      | nil =>
        rw [if_pos (Or.inr (by simp))]
        rfl
      | cons c rest =>
        show (if (connectionsBetween net a b).isEmpty then none
              else if (connectionsBetween net b c).isEmpty then none
              else (count_transfers net (b :: c :: rest)).map
                fun n =>
                  (match hopTransport net a b, hopTransport net b c with
                   | some t1, some t2 => if t1 ≠ t2 then 1 else 0
                   | _, _ => 0) + n)
            = _
        have hlen : ¬ (a :: b :: c :: rest).length ≤ 2 := by
          simp only [List.length_cons]
          omega
        by_cases hab : (connectionsBetween net a b).isEmpty = true
        · rw [if_pos hab]
          have hchain : isChain net (a :: b :: c :: rest) = false := by
            show (!(connectionsBetween net a b).isEmpty
                  && isChain net (b :: c :: rest)) = false
            rw [hab]
            rfl
          rw [if_neg (by
            rintro (hc | hl)
            · rw [hchain] at hc
              exact absurd hc (by simp)
            · exact hlen hl)]
        · have hab2 : (connectionsBetween net a b).isEmpty = false :=
            Bool.eq_false_iff.mpr hab
          rw [if_neg hab]
          by_cases hbc : (connectionsBetween net b c).isEmpty = true
          · rw [if_pos hbc]
            have htail : isChain net (b :: c :: rest) = false := by
              show (!(connectionsBetween net b c).isEmpty
                    && isChain net (c :: rest)) = false
              rw [hbc]
              rfl
            have hchain : isChain net (a :: b :: c :: rest) = false := by
              show (!(connectionsBetween net a b).isEmpty
                    && isChain net (b :: c :: rest)) = false
              rw [htail, Bool.and_false]
            rw [if_neg (by
              rintro (hc | hl)
              · rw [hchain] at hc
                exact absurd hc (by simp)
              · exact hlen hl)]
          · have hbc2 : (connectionsBetween net b c).isEmpty = false :=
              Bool.eq_false_iff.mpr hbc
            rw [if_neg hbc, ih]
            by_cases hct : isChain net (b :: c :: rest) = true
            · rw [if_pos (Or.inl hct)]
              have hchain : isChain net (a :: b :: c :: rest) = true := by
                show (!(connectionsBetween net a b).isEmpty
                      && isChain net (b :: c :: rest)) = true
                rw [hab2, hct]
                rfl
              rw [if_pos (Or.inl hchain), Option.map_some']
              rw [show (match hopTransport net a b, hopTransport net b c with
                        | some t1, some t2 => if t1 ≠ t2 then 1 else 0
                        | _, _ => 0)
                    = (if (match hopTransport net a b, hopTransport net b c with
                           | some t1, some t2 => decide (t1 ≠ t2)
                           | _, _ => false) = true then 1 else 0) from by
                cases h1 : hopTransport net a b <;>
                  cases h2 : hopTransport net b c <;> simp]
              rw [transfersSpec_cons]
            · have hct2 : isChain net (b :: c :: rest) = false :=
                Bool.eq_false_iff.mpr hct
              have hrestne : rest ≠ [] := by
                intro hr
                subst hr
                apply hct
                show (!(connectionsBetween net b c).isEmpty
                      && isChain net [c]) = true
                rw [hbc2]
                rfl
              have htail_len : ¬ (b :: c :: rest).length ≤ 2 := by
                simp only [List.length_cons]
                have := List.length_pos.mpr hrestne
                omega
              rw [if_neg (by
                rintro (hc | hl)
                · exact hct hc
                · exact htail_len hl)]
              rw [Option.map_none']
              have hchain : isChain net (a :: b :: c :: rest) = false := by
                show (!(connectionsBetween net a b).isEmpty
                      && isChain net (b :: c :: rest)) = false
                rw [hct2, Bool.and_false]
              rw [if_neg (by
                rintro (hc | hl)
                · rw [hchain] at hc
                  exact absurd hc (by simp)
                · exact hlen hl)]

unseal Rat.add in
/-- C3 (counterexample): on `c1net` the pair A–C carries no connection, so
`_calculate_total_time` on the two-station path [A, C] raises `KeyError` at
the adjacency subscript (modelled as `none`) instead of returning the sum in
which that hop contributes 0 — the spec's defensive-0 reading of the
`float('inf')` guard is false of the code. -/
theorem calculate_total_time_keyerror_counterexample :
    calculate_total_time c1net ["A", "C"] = none ∧
    totalTimeSpec c1net ["A", "C"] = 0 := by
  decide

/-- C3 (amended): `calculate_total_time` returns the sum, over each
consecutive pair of the path, of the minimum raw `travel_time` among the
parallel connections between that pair — ignoring preference weighting —
whenever every consecutive pair carries at least one connection (in
particular on every path the route search returns); for any other path of
length at least 2 the adjacency subscript raises `KeyError`, modelled as
`none`, rather than contributing 0 for the connectionless hop. -/
theorem calculate_total_time_chain_characterization :
    ∀ (net : Network) (p : List String),
      calculate_total_time net p
        = if isChain net p = true then some (totalTimeSpec net p) else none :=
  calculate_total_time_char

/-- C1 (amended): `count_transfers` attributes to each hop the transport type
of the first parallel connection, in insertion order, whose type is truthy —
not the minimum-travel-time connection — and increments the transfer count
once per interior station where both hop types are determined and differ; the
count is a natural number, 0 for every path of length at most 2 (whose loop
body never runs, so no adjacency subscript occurs); for a path of length at
least 3 with some connectionless consecutive pair the subscript raises
`KeyError`, modelled as `none`. -/
theorem count_transfers_first_edge_rule :
    (∀ (net : Network) (p : List String),
      count_transfers net p
        = if isChain net p = true ∨ p.length ≤ 2
          then some (transfersSpec hopTransport net p) else none) ∧
    (∀ (net : Network) (p : List String),
      p.length ≤ 2 → count_transfers net p = some 0) := by
  refine ⟨count_transfers_char, ?_⟩
  intro net p h
  rw [count_transfers_char, if_pos (Or.inr h), transfersSpec_short _ _ _ h]

/-- C1 (counterexample): in `c1net` the hop A–B has first-inserted type Bus
but minimum-travel-time type Metro, so on the path A–B–C the code counts one
transfer while the spec's minimum-travel-time rule counts none. -/
theorem count_transfers_minTime_counterexample :
    count_transfers c1net ["A", "B", "C"] = some 1 ∧
    transfersSpec minTimeTransport c1net ["A", "B", "C"] = 0 := by
  decide

/-- C1 (witness): the amended theorem applied to the sample network on a
two-station path. -/
theorem count_transfers_first_edge_rule_witness :
    count_transfers sampleNet ["West", "Airport"] = some 0 :=
  count_transfers_first_edge_rule.2 sampleNet ["West", "Airport"] (by decide)

/-- C10: the undocumented `time` argument of `find_optimal_route` is never
read, so two calls differing only in it return the identical outcome — the
same path, total time and transfer count, or the same failure. -/
theorem find_optimal_route_ignores_time (net : Network) (s e : String)
    (t1 t2 : Option String) (preferences : Option (String → Option ℚ)) :
    find_optimal_route net s e t1 preferences
      = find_optimal_route net s e t2 preferences := rfl

/-- C5: whenever `find_optimal_route` succeeds, the total time it reports is
the value `_calculate_total_time` computes on the returned path and the
transfer count it reports is the value `_count_transfers` computes on that
same path, over the same network (both helpers succeeding on it). -/
theorem find_optimal_route_consistent (net : Network) (s e : String)
    (time : Option String) (preferences : Option (String → Option ℚ))
    (p : List String) (tt : ℚ) (tr : ℕ)
    (h : find_optimal_route net s e time preferences = Except.ok (p, tt, tr)) :
    calculate_total_time net p = some tt ∧ count_transfers net p = some tr := by
  unfold find_optimal_route at h
  split at h
  · exact absurd h (by simp)
  · split at h
    · unfold packageRoute at h
      split at h
      · rw [Except.ok.injEq, Prod.mk.injEq, Prod.mk.injEq] at h
        obtain ⟨hp, htt, htr⟩ := h
        subst hp
        subst htt
        subst htr
        constructor <;> assumption
      · exact absurd h (by simp)
    · exact absurd h (by simp)

unseal Rat.mul Rat.add in
/-- C5 (witness): the consistency theorem applied to the concrete Metro/Bus
two-station search. -/
theorem find_optimal_route_consistent_witness :
    calculate_total_time c4net ["A", "B"] = some 8 ∧
    count_transfers c4net ["A", "B"] = some 0 :=
  find_optimal_route_consistent c4net "A" "B" none (some c4prefs)
    ["A", "B"] 8 0 (by decide)

unseal Rat.mul Rat.add in
/-- C4: with two stations joined by a Metro connection of time 10 and a Bus
connection of time 8 and preferences Metro ↦ 1.0, Bus ↦ 2.0, the search weight
of the hop is the Metro weight 10 (not the Bus weight 16), the route is found,
and `calculate_total_time` on the resulting single-hop path reports the
minimum raw travel time 8. -/
theorem preference_sensitivity_scenario :
    weight_function c4net c4prefs "A" "B" = 10 ∧
    find_optimal_route c4net "A" "B" none (some c4prefs)
      = Except.ok (["A", "B"], 8, 0) := by
  decide

theorem selectMin_mem {α : Type} (l : List (ℚ × α)) (x : ℚ × α)
    (h : selectMin l = some x) : x ∈ l := by
  induction l with
  | nil => simp [selectMin] at h
  | cons en es ih =>
    rw [show selectMin (en :: es)
          = some (match selectMin es with
                  | none => en
                  | some m => if m.1 < en.1 then m else en) from rfl] at h
    injection h with h
    cases hsel : selectMin es with
    | none =>
      rw [hsel] at h
      subst h
      exact List.mem_cons_self en es
    | some m =>
      rw [hsel] at h
      have h2 : (if m.1 < en.1 then m else en) = x := h
      by_cases hlt : m.1 < en.1
      · rw [if_pos hlt] at h2
        subst h2
        exact List.mem_cons_of_mem en (ih hsel)
      · rw [if_neg hlt] at h2
        subst h2
        exact List.mem_cons_self en es

theorem selectMin_eq_none {α : Type} (l : List (ℚ × α)) :
    selectMin l = none ↔ l = [] := by
  cases l with
  | nil => simp [selectMin]
  | cons en es => simp [selectMin]

theorem Reachable.snoc {net : Network} {s u v : String}
    (h : Reachable net s u) (hc : connectionsBetween net u v ≠ []) :
    Reachable net s v := by
  induction h with
  | refl w => exact Reachable.step hc (Reachable.refl v)
  | step h1 _ ih => exact Reachable.step h1 (ih hc)

theorem revChain_reachable {net : Network} {s : String} :
    ∀ {u : String} {rest : List String}, RevChain net s u rest →
      Reachable net s u := by
  intro u rest h
  induction h with
  | nil => exact Reachable.refl s
  | cons _ hc ih => exact ih.snoc hc

theorem isChain_append_adj (net : Network) :
    ∀ (l : List String) (x v : String),
    isChain net (l ++ [x]) = true → connectionsBetween net x v ≠ [] →
    isChain net ((l ++ [x]) ++ [v]) = true := by
  intro l
  induction l with
  | nil =>
    intro x v _ hc
    show isChain net [x, v] = true
    simp [isChain, List.isEmpty_iff, hc]
  | cons a l ih =>
    intro x v hch hc
    cases l with
    | nil =>
      simp only [List.nil_append, List.cons_append, isChain,
        Bool.and_eq_true] at hch ⊢
      exact ⟨hch.1, by simp [isChain, List.isEmpty_iff, hc]⟩
    | cons b l2 =>
      simp only [List.cons_append, isChain, Bool.and_eq_true] at hch ⊢
      refine ⟨hch.1, ?_⟩
      have := ih x v (by simpa using hch.2) hc
      simpa using this

theorem revChain_isChain {net : Network} {s : String} :
    ∀ {u : String} {rest : List String}, RevChain net s u rest →
      isChain net ((u :: rest).reverse) = true := by
  intro u rest h
  induction h with
  | nil => rfl
  | @cons u v rest hprev hc ih =>
    rw [List.reverse_cons] at ih ⊢
    rw [List.reverse_cons]
    exact isChain_append_adj net rest.reverse u v ih hc

theorem RWithin.mem_head {net : Network} {S : List String} {u w : String}
    (h : RWithin net S u w) : u ∈ S := by
  cases h with
  | refl _ hx => exact hx
  | step hx _ _ => exact hx

theorem rwithin_avoid {net : Network} {S : List String} {u w : String}
    (h : RWithin net S u w) (m : String) (hm : m ≠ w) :
    RWithin net (S.erase m) u w ∨
    ∃ v, connectionsBetween net m v ≠ [] ∧ RWithin net (S.erase m) v w := by
  induction h with
  | refl x hx =>
    left
    exact RWithin.refl x ((List.mem_erase_of_ne (fun hxm => hm hxm.symm)).mpr hx)
  | @step a b c hx hc _ ih =>
    by_cases ham : a = m
    · subst ham
      rcases ih hm with h1 | ⟨v2, hc2, h2⟩
      · exact Or.inr ⟨b, hc, h1⟩
      · exact Or.inr ⟨v2, hc2, h2⟩
    · rcases ih hm with h1 | h2
      · exact Or.inl (RWithin.step ((List.mem_erase_of_ne ham).mpr hx) hc h1)
      · exact Or.inr h2

theorem dijkstra_sound (net : Network) (preferences : String → Option ℚ)
    (target s : String) :
    ∀ (fuel : ℕ) (unvisited : List String)
      (frontier : List (ℚ × String × List String)),
    (∀ en ∈ frontier, RevChain net s en.2.1 en.2.2) →
    ∀ p, dijkstraLoop net preferences target fuel unvisited frontier = some p →
    ∃ rest, RevChain net s target rest ∧ p = (target :: rest).reverse := by
  intro fuel
  induction fuel with
  | zero =>
    intro unvisited frontier _ p h
    exact absurd h (by simp [dijkstraLoop])
  | succ fuel ih =>
    intro unvisited frontier hinv p h
    rw [dijkstraLoop] at h
    cases hsel : selectMin (frontier.filter fun en => decide (en.2.1 ∈ unvisited)) with
    | none => rw [hsel] at h; exact absurd h (by simp)
    | some dur =>
      obtain ⟨d, u, rest⟩ := dur
      rw [hsel] at h
      have hmem : (d, u, rest) ∈ frontier :=
        (List.mem_filter.mp (selectMin_mem _ _ hsel)).1
      have hrc : RevChain net s u rest := hinv _ hmem
      have h2 : (if u = target then some ((u :: rest).reverse)
                 else dijkstraLoop net preferences target fuel (unvisited.erase u)
                   (frontier ++ (neighbors net u).map
                     fun v => (d + weight_function net preferences u v, v, u :: rest)))
          = some p := h
      by_cases hu : u = target
      · rw [if_pos hu] at h2
        subst hu
        injection h2 with h2
        exact ⟨rest, hrc, h2.symm⟩
      · rw [if_neg hu] at h2
        refine ih _ _ ?_ p h2
        intro en hen
        rcases List.mem_append.mp hen with h1 | h3
        · exact hinv _ h1
        · obtain ⟨v, hv, hvEq⟩ := List.mem_map.mp h3
          subst hvEq
          refine RevChain.cons hrc ?_
          have hadj := (List.mem_filter.mp hv).2
          simpa [List.isEmpty_iff] using hadj

theorem dijkstra_complete (net : Network) (preferences : String → Option ℚ)
    (target : String) :
    ∀ (fuel : ℕ) (unvisited : List String)
      (frontier : List (ℚ × String × List String)),
    unvisited.length ≤ fuel →
    (∀ x ∈ unvisited, x ∈ net.nodeList) →
    (∃ en ∈ frontier, RWithin net unvisited en.2.1 target) →
    (dijkstraLoop net preferences target fuel unvisited frontier).isSome = true := by
  intro fuel
  induction fuel with
  | zero =>
    intro unvisited frontier hlen _ hex
    obtain ⟨en, _, hrw⟩ := hex
    have h0 : unvisited = [] := List.length_eq_zero.mp (Nat.le_zero.mp hlen)
    rw [h0] at hrw
    exact absurd hrw.mem_head (by simp)
  | succ fuel ih =>
    intro unvisited frontier hlen hsub hex
    obtain ⟨en, henf, hrw⟩ := hex
    have henu : en.2.1 ∈ unvisited := hrw.mem_head
    rw [dijkstraLoop]
    have hlive : en ∈ frontier.filter (fun x => decide (x.2.1 ∈ unvisited)) :=
      List.mem_filter.mpr ⟨henf, by simpa using henu⟩
    cases hsel : selectMin (frontier.filter fun x => decide (x.2.1 ∈ unvisited)) with
    | none =>
      rw [(selectMin_eq_none _).mp hsel] at hlive
      exact absurd hlive (by simp)
    | some dur =>
      obtain ⟨d, m, rest⟩ := dur
      have hmm := List.mem_filter.mp (selectMin_mem _ _ hsel)
      have hmu : m ∈ unvisited := by simpa using hmm.2
      show (if m = target then some ((m :: rest).reverse)
            else dijkstraLoop net preferences target fuel (unvisited.erase m)
              (frontier ++ (neighbors net m).map
                fun v => (d + weight_function net preferences m v, v, m :: rest))).isSome
          = true
      by_cases hmt : m = target
      · rw [if_pos hmt]
        rfl
      · rw [if_neg hmt]
        have hlen2 : (unvisited.erase m).length ≤ fuel := by
          rw [List.length_erase_of_mem hmu]
          omega
        have hsub2 : ∀ x ∈ unvisited.erase m, x ∈ net.nodeList :=
          fun x hx => hsub x (List.erase_subset _ _ hx)
        refine ih (unvisited.erase m) _ hlen2 hsub2 ?_
        rcases rwithin_avoid hrw m hmt with h1 | ⟨v, hcv, h2⟩
        · exact ⟨en, List.mem_append_left _ henf, h1⟩
        · have hvu : v ∈ unvisited.erase m := h2.mem_head
          have hvN : v ∈ net.nodeList := hsub v (List.erase_subset _ _ hvu)
          refine ⟨(d + weight_function net preferences m v, v, m :: rest),
            List.mem_append_right _ ?_, h2⟩
          refine List.mem_map.mpr ⟨v, ?_, rfl⟩
          refine List.mem_filter.mpr ⟨hvN, ?_⟩
          simp [List.isEmpty_iff, hcv]

/-- C2: the search weight of a hop `u`–`v` with at least one connection is the
minimum over all parallel connections of `travel_time` times the preference
multiplier of the connection's type (the multiplier defaulting to 1 when the
type is missing from the mapping); and every path the search returns is a
chain of pairs each holding at least one connection — the search never
traverses a connection-less pair. -/
theorem weight_function_min_and_chain :
    (∀ (net : Network) (preferences : String → Option ℚ) (u v : String),
      connectionsBetween net u v ≠ [] →
      ((connectionsBetween net u v).map
        fun c => c.travel_time * (preferences c.transport_type).getD 1).min?
        = some (weight_function net preferences u v)) ∧
    (∀ (net : Network) (s e : String) (time : Option String)
       (preferences : Option (String → Option ℚ))
       (p : List String) (tt : ℚ) (tr : ℕ),
      find_optimal_route net s e time preferences = Except.ok (p, tt, tr) →
      isChain net p = true) := by
  constructor
  · intro net preferences u v hne
    unfold weight_function
    rw [show (connectionsBetween net u v).foldl
          (fun acc c => optMinStep acc
            (c.travel_time * (preferences c.transport_type).getD 1)) none
        = ((connectionsBetween net u v).map
            fun c => c.travel_time * (preferences c.transport_type).getD 1).foldl
            optMinStep none from (List.foldl_map _ _ _ _).symm]
    rw [foldl_optMin_none]
    cases hmin : ((connectionsBetween net u v).map
        fun c => c.travel_time * (preferences c.transport_type).getD 1).min? with
    | none =>
      rw [List.min?_eq_none_iff] at hmin
      exact absurd (List.map_eq_nil_iff.mp hmin) hne
    | some m => rfl
  · intro net s e time preferences p tt tr h
    unfold find_optimal_route at h
    split at h
    · exact absurd h (by simp)
    · cases hdij : dijkstraLoop net (preferences.getD defaultPreferences) e
          net.nodeList.length net.nodeList [(0, s, [])] with
      | none => rw [hdij] at h; exact absurd h (by simp)
      | some q =>
        rw [hdij] at h
        obtain ⟨rest, hrc, hqe⟩ := dijkstra_sound net
          (preferences.getD defaultPreferences) e s _ _ _
          (by
            intro en hen
            rw [List.mem_singleton] at hen
            subst hen
            exact RevChain.nil) q hdij
        have hchain : isChain net q = true := by
          rw [hqe]
          exact revChain_isChain hrc
        have h3 : packageRoute net q = Except.ok (p, tt, tr) := h
        rw [show packageRoute net q = Except.ok (q, totalTimeSpec net q,
              transfersSpec hopTransport net q) from by
          unfold packageRoute
          rw [calculate_total_time_char, if_pos hchain,
            count_transfers_char, if_pos (Or.inl hchain)]] at h3
        rw [Except.ok.injEq, Prod.mk.injEq] at h3
        rw [← h3.1]
        exact hchain

/-- C2 (witness): the weight equation applied to the Metro/Bus pair of the
preference-sensitivity network. -/
theorem weight_function_min_and_chain_witness :
    ((connectionsBetween c4net "A" "B").map
      fun c => c.travel_time * (c4prefs c.transport_type).getD 1).min?
      = some (weight_function c4net c4prefs "A" "B") :=
  weight_function_min_and_chain.1 c4net c4prefs "A" "B" (by decide)

/-- C6: for every station X present in the network, a route query from X to X
succeeds with the degenerate path [X], total time 0 and transfer count 0. -/
theorem find_optimal_route_self (net : Network) (X : String)
    (time : Option String) (preferences : Option (String → Option ℚ))
    (h : X ∈ net.nodeList) :
    find_optimal_route net X X time preferences = Except.ok ([X], 0, 0) := by
  obtain ⟨a, l, hl⟩ : ∃ a l, net.nodeList = a :: l := by
    cases hnl : net.nodeList with
    | nil => rw [hnl] at h; exact absurd h (by simp)
    | cons a l => exact ⟨a, l, rfl⟩
  have hdij : dijkstraLoop net (preferences.getD defaultPreferences) X
      (l.length + 1) (a :: l) [((0 : ℚ), X, ([] : List String))] = some [X] := by
    rw [dijkstraLoop]
    rw [show ([((0 : ℚ), X, ([] : List String))].filter
          fun en => decide (en.2.1 ∈ a :: l)) = [(0, X, [])] from by
      rw [← hl]
      simp [List.filter, h]]
    rw [show selectMin [((0 : ℚ), X, ([] : List String))]
          = some (0, X, []) from rfl]
    show (if X = X then some ((X :: ([] : List String)).reverse)
          else dijkstraLoop net (preferences.getD defaultPreferences) X l.length
            ((a :: l).erase X)
            ([((0 : ℚ), X, ([] : List String))] ++ (neighbors net X).map
              fun v => ((0 : ℚ) + weight_function net
                (preferences.getD defaultPreferences) X v, v,
                X :: ([] : List String))))
        = some [X]
    rw [if_pos rfl]
    rfl
  unfold find_optimal_route
  rw [if_neg (by simp [h])]
  rw [hl]
  rw [show (a :: l).length = l.length + 1 from rfl]
  rw [hdij]
  rfl

/-- C6 (witness): the degenerate query at the sample network's West station. -/
theorem find_optimal_route_self_witness :
    find_optimal_route sampleNet "West" "West" none none
      = Except.ok (["West"], 0, 0) :=
  find_optimal_route_self sampleNet "West" none none (by decide)

theorem add_connection_fst_transport_types (net : Network)
    (s e ty : String) (tt : ℚ) (sch : Option (List String)) :
    (add_connection net s e ty tt sch).1.transport_types = net.transport_types := by
  unfold add_connection
  split <;> rfl

theorem runOps_transport_types : ∀ (ops : List Op) (net : Network),
    (runOps net ops).transport_types = net.transport_types := by
  intro ops
  induction ops with
  | nil => intro net; rfl
  | cons op rest ih =>
    intro net
    cases op with
    | addStation station_id cap => exact ih (add_station net station_id cap)
    | addConnection s e ty tt sch =>
      rw [show runOps net (Op.addConnection s e ty tt sch :: rest)
            = runOps (add_connection net s e ty tt sch).1 rest from rfl]
      rw [ih, add_connection_fst_transport_types]

theorem mem_insertNode (l : List String) (y x : String) :
    x ∈ insertNode l y ↔ x ∈ l ∨ x = y := by
  unfold insertNode
  split
  · constructor
    · exact Or.inl
    · rintro (hx | hx)
      · exact hx
      · subst hx; assumption
  · simp [List.mem_append]

theorem mem_runOps_nodeList : ∀ (ops : List Op) (net : Network) (x : String),
    x ∈ (runOps net ops).nodeList ↔
      x ∈ net.nodeList ∨ mentionedT net.transport_types ops x = true := by
  intro ops
  induction ops with
  | nil =>
    intro net x
    simp [runOps, mentionedT]
  | cons op rest ih =>
    intro net x
    cases op with
    | addStation station_id cap =>
      rw [show runOps net (Op.addStation station_id cap :: rest)
            = runOps (add_station net station_id cap) rest from rfl]
      rw [ih (add_station net station_id cap) x]
      rw [show (add_station net station_id cap).transport_types
            = net.transport_types from rfl]
      rw [show (add_station net station_id cap).nodeList
            = insertNode net.nodeList station_id from rfl]
      rw [mem_insertNode]
      rw [show mentionedT net.transport_types
            (Op.addStation station_id cap :: rest) x
          = ((station_id == x) || mentionedT net.transport_types rest x) from by
        simp [mentionedT]]
      simp only [Bool.or_eq_true, beq_iff_eq]
      constructor
      · rintro ((hx | hx) | hx)
        · exact Or.inl hx
        · exact Or.inr (Or.inl hx.symm)
        · exact Or.inr (Or.inr hx)
      · rintro (hx | hx | hx)
        · exact Or.inl (Or.inl hx)
        · exact Or.inl (Or.inr hx.symm)
        · exact Or.inr hx
    | addConnection s e ty tt sch =>
      rw [show runOps net (Op.addConnection s e ty tt sch :: rest)
            = runOps (add_connection net s e ty tt sch).1 rest from rfl]
      rw [ih (add_connection net s e ty tt sch).1 x]
      rw [add_connection_fst_transport_types]
      rw [show mentionedT net.transport_types
            (Op.addConnection s e ty tt sch :: rest) x
          = ((decide (ty ∈ net.transport_types) && (s == x || e == x))
              || mentionedT net.transport_types rest x) from by
        simp [mentionedT]]
      by_cases hty : ty ∈ net.transport_types
      · rw [show (add_connection net s e ty tt sch).1.nodeList
              = insertNode (insertNode net.nodeList s) e from by
          unfold add_connection
          rw [if_pos hty]]
        rw [mem_insertNode, mem_insertNode]
        simp only [Bool.or_eq_true, Bool.and_eq_true, decide_eq_true_eq,
          beq_iff_eq]
        constructor
        · rintro (((hx | hx) | hx) | hx)
          · exact Or.inl hx
          · exact Or.inr (Or.inl ⟨hty, Or.inl hx.symm⟩)
          · exact Or.inr (Or.inl ⟨hty, Or.inr hx.symm⟩)
          · exact Or.inr (Or.inr hx)
        · rintro (hx | (⟨-, hx | hx⟩ | hx))
          · exact Or.inl (Or.inl (Or.inl hx))
          · exact Or.inl (Or.inl (Or.inr hx.symm))
          · exact Or.inl (Or.inr hx.symm)
          · exact Or.inr hx
      · rw [show (add_connection net s e ty tt sch).1.nodeList
              = net.nodeList from by
          unfold add_connection
          rw [if_neg hty]]
        simp only [Bool.or_eq_true, Bool.and_eq_true, decide_eq_true_eq,
          beq_iff_eq]
        constructor
        · rintro (hx | hx)
          · exact Or.inl hx
          · exact Or.inr (Or.inr hx)
        · rintro (hx | (⟨hty2, -⟩ | hx))
          · exact Or.inl hx
          · exact absurd hty2 hty
          · exact Or.inr hx

theorem add_connection_WF (net : Network) (s e ty : String) (tt : ℚ)
    (sch : Option (List String)) (h : WFNet net) :
    WFNet (add_connection net s e ty tt sch).1 := by
  by_cases hty : ty ∈ net.transport_types
  · rw [show (add_connection net s e ty tt sch).1
        = { net with
            nodeList := insertNode (insertNode net.nodeList s) e,
            connections := net.connections ++ [⟨s, e, ty, tt, sch⟩] } from by
      unfold add_connection
      rw [if_pos hty]]
    intro c hc
    rcases List.mem_append.mp hc with h1 | h2
    · obtain ⟨hs, he⟩ := h c h1
      exact ⟨(mem_insertNode _ _ _).mpr (Or.inl ((mem_insertNode _ _ _).mpr (Or.inl hs))),
             (mem_insertNode _ _ _).mpr (Or.inl ((mem_insertNode _ _ _).mpr (Or.inl he)))⟩
    · rw [List.mem_singleton] at h2
      subst h2
      exact ⟨(mem_insertNode _ _ _).mpr (Or.inl ((mem_insertNode _ _ _).mpr (Or.inr rfl))),
             (mem_insertNode _ _ _).mpr (Or.inr rfl)⟩
  · rw [show (add_connection net s e ty tt sch).1 = net from by
      unfold add_connection
      rw [if_neg hty]]
    exact h

theorem runOps_WF : ∀ (ops : List Op) (net : Network),
    WFNet net → WFNet (runOps net ops) := by
  intro ops
  induction ops with
  | nil => intro net h; exact h
  | cons op rest ih =>
    intro net h
    cases op with
    | addStation station_id cap =>
      refine ih (add_station net station_id cap) ?_
      intro c hc
      obtain ⟨hs, he⟩ := h c hc
      exact ⟨(mem_insertNode _ _ _).mpr (Or.inl hs),
             (mem_insertNode _ _ _).mpr (Or.inl he)⟩
    | addConnection s e ty tt sch =>
      exact ih _ (add_connection_WF net s e ty tt sch h)

theorem mem_nodeList_of_conns (net : Network) (hWF : WFNet net) {u v : String}
    (h : connectionsBetween net u v ≠ []) : v ∈ net.nodeList := by
  obtain ⟨c, hc⟩ := List.exists_mem_of_ne_nil _ h
  have hcf := List.mem_filter.mp hc
  have hWFc := hWF c hcf.1
  have hpred := hcf.2
  simp only [Bool.or_eq_true, Bool.and_eq_true, beq_iff_eq] at hpred
  rcases hpred with ⟨h1, h2⟩ | ⟨h1, h2⟩
  · exact h2 ▸ hWFc.2
  · exact h1 ▸ hWFc.1

theorem reachable_rwithin (net : Network) (hWF : WFNet net) {s e : String}
    (hs : s ∈ net.nodeList) (h : Reachable net s e) :
    RWithin net net.nodeList s e := by
  induction h with
  | refl u => exact RWithin.refl u hs
  | @step a b c hc _ ih =>
    exact RWithin.step hs hc (ih (mem_nodeList_of_conns net hWF hc))

theorem unknown_ne_noPath (s e : String) :
    ("Start or end station not found in network" : String)
      ≠ "No path found between " ++ s ++ " and " ++ e := by
  intro h
  have h2 : ("Start or end station not found in network" : String).data.head?
      = ("No path found between " ++ s ++ " and " ++ e).data.head? := by rw [h]
  have h3 : ("No path found between " ++ s ++ " and " ++ e).data.head?
      = some 'N' := rfl
  rw [h3] at h2
  exact absurd h2 (by decide)

theorem find_route_error_cases (net : Network) (hWF : WFNet net)
    (s e : String) (time : Option String)
    (preferences : Option (String → Option ℚ)) :
    (find_optimal_route net s e time preferences
        = Except.error "Start or end station not found in network"
      ↔ ¬ (s ∈ net.nodeList ∧ e ∈ net.nodeList)) ∧
    (s ∈ net.nodeList → e ∈ net.nodeList →
      (find_optimal_route net s e time preferences
          = Except.error ("No path found between " ++ s ++ " and " ++ e)
        ↔ ¬ Reachable net s e)) ∧
    (s ∈ net.nodeList → e ∈ net.nodeList → Reachable net s e →
      ∃ r, find_optimal_route net s e time preferences = Except.ok r) := by
  by_cases hin : s ∈ net.nodeList ∧ e ∈ net.nodeList
  · obtain ⟨hs, he⟩ := hin
    have hcond : ¬ (s ∉ net.nodeList ∨ e ∉ net.nodeList) := by simp [hs, he]
    cases hdij : dijkstraLoop net (preferences.getD defaultPreferences) e
        net.nodeList.length net.nodeList [(0, s, [])] with
    | some p =>
      obtain ⟨rest, hrc, hpe⟩ := dijkstra_sound net
        (preferences.getD defaultPreferences) e s _ _ _
        (by
          intro en hen
          rw [List.mem_singleton] at hen
          subst hen
          exact RevChain.nil) p hdij
      have hchain : isChain net p = true := by
        rw [hpe]
        exact revChain_isChain hrc
      have hpack : packageRoute net p
          = Except.ok (p, totalTimeSpec net p,
              transfersSpec hopTransport net p) := by
        unfold packageRoute
        rw [calculate_total_time_char, if_pos hchain,
          count_transfers_char, if_pos (Or.inl hchain)]
      have hfind : find_optimal_route net s e time preferences
          = Except.ok (p, totalTimeSpec net p,
              transfersSpec hopTransport net p) := by
        unfold find_optimal_route
        rw [if_neg hcond, hdij]
        show packageRoute net p = _
        rw [hpack]
      have hreach : Reachable net s e := revChain_reachable hrc
      refine ⟨?_, fun _ _ => ?_, fun _ _ _ => ⟨_, hfind⟩⟩
      · rw [hfind]
        simp [hs, he]
      · rw [hfind]
        simp [hreach]
    | none =>
      have hfind : find_optimal_route net s e time preferences
          = Except.error ("No path found between " ++ s ++ " and " ++ e) := by
        unfold find_optimal_route
        rw [if_neg hcond, hdij]
      have hnr : ¬ Reachable net s e := by
        intro hr
        have hc := dijkstra_complete net (preferences.getD defaultPreferences) e
          net.nodeList.length net.nodeList [(0, s, [])] (Nat.le_refl _)
          (fun x hx => hx)
          ⟨(0, s, []), List.mem_singleton.mpr rfl,
            reachable_rwithin net hWF hs hr⟩
        rw [hdij] at hc
        exact absurd hc (by simp)
      refine ⟨?_, fun _ _ => ?_, fun _ _ hr => absurd hr hnr⟩
      · rw [hfind]
        constructor
        · intro hmsg
          rw [Except.error.injEq] at hmsg
          exact absurd hmsg.symm (unknown_ne_noPath s e)
        · intro hmem
          exact absurd ⟨hs, he⟩ hmem
      · rw [hfind]
        simp [hnr]
  · have hcond : s ∉ net.nodeList ∨ e ∉ net.nodeList := by tauto
    have hfind : find_optimal_route net s e time preferences
        = Except.error "Start or end station not found in network" := by
      unfold find_optimal_route
      rw [if_pos hcond]
    refine ⟨?_, fun hs he => absurd ⟨hs, he⟩ hin,
      fun hs he _ => absurd ⟨hs, he⟩ hin⟩
    rw [hfind]
    simp [hin]

/-- C7: a route query fails with the unknown-station error exactly when start
or end is not among the stations explicitly added or holding at least one
recorded connection; when both are known but no sequence of connections links
them, it fails with the no-path error; otherwise it returns a result; and the
two failure messages are distinguishable. -/
theorem find_optimal_route_error_classification (ops : List Op) (s e : String)
    (time : Option String) (preferences : Option (String → Option ℚ)) :
    (find_optimal_route (runOps Network.empty ops) s e time preferences
        = Except.error "Start or end station not found in network"
      ↔ ¬ (mentioned ops s = true ∧ mentioned ops e = true)) ∧
    (mentioned ops s = true → mentioned ops e = true →
      (find_optimal_route (runOps Network.empty ops) s e time preferences
          = Except.error ("No path found between " ++ s ++ " and " ++ e)
        ↔ ¬ Reachable (runOps Network.empty ops) s e)) ∧
    (mentioned ops s = true → mentioned ops e = true →
      Reachable (runOps Network.empty ops) s e →
      ∃ r, find_optimal_route (runOps Network.empty ops) s e time preferences
        = Except.ok r) ∧
    ("Start or end station not found in network" : String)
      ≠ "No path found between " ++ s ++ " and " ++ e := by
  have hchar : ∀ x, x ∈ (runOps Network.empty ops).nodeList
      ↔ mentioned ops x = true := by
    intro x
    rw [mem_runOps_nodeList]
    simp [Network.empty, mentioned]
  have hWF : WFNet (runOps Network.empty ops) :=
    runOps_WF ops Network.empty (by intro c hc; simp [Network.empty] at hc)
  obtain ⟨h1, h2, h3⟩ :=
    find_route_error_cases (runOps Network.empty ops) hWF s e time preferences
  refine ⟨?_, ?_, ?_, unknown_ne_noPath s e⟩
  · rw [h1, hchar s, hchar e]
  · intro ms me
    exact h2 ((hchar s).mpr ms) ((hchar e).mpr me)
  · intro ms me
    exact h3 ((hchar s).mpr ms) ((hchar e).mpr me)

/-- C7 (witness): querying from a station never added is rejected with the
unknown-station error on the sample network. -/
theorem find_optimal_route_error_classification_witness :
    find_optimal_route (runOps Network.empty sampleOps) "Nowhere" "Airport"
      none none = Except.error "Start or end station not found in network" :=
  ((find_optimal_route_error_classification sampleOps "Nowhere" "Airport"
    none none).1).mpr (by decide)

/-- C8: `add_connection` fails exactly when the transport type is outside
Metro, Bus, Train; on failure the network state — stations and connections —
is unchanged; on success the new parallel connection is appended, with no
requirement that either endpoint was ever added via `add_station`. -/
theorem add_connection_validation (ops : List Op) (s e ty : String)
    (tt : ℚ) (sch : Option (List String)) :
    ((add_connection (runOps Network.empty ops) s e ty tt sch).2.isSome = true
      ↔ ty ∉ (["Metro", "Bus", "Train"] : List String)) ∧
    ((add_connection (runOps Network.empty ops) s e ty tt sch).2.isSome = true →
      (add_connection (runOps Network.empty ops) s e ty tt sch).1
        = runOps Network.empty ops) ∧
    ((add_connection (runOps Network.empty ops) s e ty tt sch).2 = none →
      (add_connection (runOps Network.empty ops) s e ty tt sch).1.connections
        = (runOps Network.empty ops).connections ++ [⟨s, e, ty, tt, sch⟩]) := by
  have htypes : (runOps Network.empty ops).transport_types
      = ["Metro", "Bus", "Train"] := runOps_transport_types ops Network.empty
  unfold add_connection
  rw [htypes]
  by_cases hty : ty ∈ (["Metro", "Bus", "Train"] : List String)
  · rw [if_pos hty]
    exact ⟨by simp [hty], by simp, by intro _; rfl⟩
  · rw [if_neg hty]
    exact ⟨by simp [hty], by intro _; rfl, by simp⟩

/-- C8 (witness): an invalid transport type is rejected on the sample
network. -/
theorem add_connection_validation_witness :
    (add_connection (runOps Network.empty sampleOps) "West" "North" "Boat"
      5 none).2.isSome = true :=
  (add_connection_validation sampleOps "West" "North" "Boat" 5 none).1.mpr
    (by decide)

theorem runOps_connections : ∀ (ops : List Op) (net : Network),
    (runOps net ops).connections
      = net.connections ++ opsConns net.transport_types ops := by
  intro ops
  induction ops with
  | nil => intro net; simp [runOps, opsConns]
  | cons op rest ih =>
    intro net
    cases op with
    | addStation station_id cap =>
      rw [show runOps net (Op.addStation station_id cap :: rest)
            = runOps (add_station net station_id cap) rest from rfl]
      rw [ih]
      rw [show (add_station net station_id cap).connections
            = net.connections from rfl]
      rw [show (add_station net station_id cap).transport_types
            = net.transport_types from rfl]
      rw [show opsConns net.transport_types (Op.addStation station_id cap :: rest)
            = opsConns net.transport_types rest from by
        simp [opsConns, opConn, List.filterMap_cons]]
    | addConnection s e ty tt sch =>
      rw [show runOps net (Op.addConnection s e ty tt sch :: rest)
            = runOps (add_connection net s e ty tt sch).1 rest from rfl]
      rw [ih, add_connection_fst_transport_types]
      by_cases hty : ty ∈ net.transport_types
      · rw [show (add_connection net s e ty tt sch).1.connections
              = net.connections ++ [⟨s, e, ty, tt, sch⟩] from by
          unfold add_connection
          rw [if_pos hty]]
        rw [show opsConns net.transport_types
              (Op.addConnection s e ty tt sch :: rest)
            = (⟨s, e, ty, tt, sch⟩ : Connection)
                :: opsConns net.transport_types rest from by
          simp [opsConns, opConn, List.filterMap_cons, hty]]
        simp
      · rw [show (add_connection net s e ty tt sch).1.connections
              = net.connections from by
          unfold add_connection
          rw [if_neg hty]]
        rw [show opsConns net.transport_types
              (Op.addConnection s e ty tt sch :: rest)
            = opsConns net.transport_types rest from by
          simp [opsConns, opConn, List.filterMap_cons, hty]]

theorem opsConns_noDup (types : List String) :
    ∀ ops, opsNoDup ops = true → noDup (opsConns types ops) = true := by
  intro ops
  induction ops with
  | nil => intro _; rfl
  | cons op rest ih =>
    intro h
    cases op with
    | addStation station_id cap =>
      rw [show opsConns types (Op.addStation station_id cap :: rest)
            = opsConns types rest from by
        simp [opsConns, opConn, List.filterMap_cons]]
      exact ih (by simpa [opsNoDup] using h)
    | addConnection a b ty tt sch =>
      rw [show opsNoDup (Op.addConnection a b ty tt sch :: rest)
            = ((rest.all fun op2 =>
                match op2 with
                | Op.addStation _ _ => true
                | Op.addConnection a2 b2 ty2 _ _ =>
                  !samePairTypeKeys a b ty a2 b2 ty2) && opsNoDup rest)
          from rfl] at h
      rw [Bool.and_eq_true] at h
      obtain ⟨hall, hrest⟩ := h
      by_cases hty : ty ∈ types
      · rw [show opsConns types (Op.addConnection a b ty tt sch :: rest)
              = (⟨a, b, ty, tt, sch⟩ : Connection) :: opsConns types rest from by
          simp [opsConns, opConn, List.filterMap_cons, hty]]
        rw [show noDup ((⟨a, b, ty, tt, sch⟩ : Connection) :: opsConns types rest)
              = ((opsConns types rest).all
                  (fun d => !samePairTypeKeys a b ty
                    d.cstart d.cend d.transport_type)
                && noDup (opsConns types rest)) from rfl]
        rw [Bool.and_eq_true]
        refine ⟨?_, ih hrest⟩
        rw [List.all_eq_true]
        intro d hd
        obtain ⟨op2, hop2, hopc⟩ := List.mem_filterMap.mp hd
        cases op2 with
        | addStation _ _ => simp [opConn] at hopc
        | addConnection a2 b2 ty2 tt2 sch2 =>
          rw [show opConn types (Op.addConnection a2 b2 ty2 tt2 sch2)
                = if ty2 ∈ types then some ⟨a2, b2, ty2, tt2, sch2⟩ else none
              from rfl] at hopc
          split at hopc
          · injection hopc with hd2
            subst hd2
            have hone := List.all_eq_true.mp hall _ hop2
            simpa using hone
          · exact absurd hopc (by simp)
      · rw [show opsConns types (Op.addConnection a b ty tt sch :: rest)
              = opsConns types rest from by
          simp [opsConns, opConn, List.filterMap_cons, hty]]
        exact ih hrest

/-- C9 (counterexample): two `add_connection` calls with the same pair A–B and
the same type Metro leave the network with two parallel Metro connections on
that pair — the at-most-one-per-type invariant fails. -/
theorem connection_invariant_counterexample :
    noDup (runOps Network.empty c9ops).connections = false := by decide

/-- C9 (amended): every successful `add_connection` appends its own connection
record — duplicates are neither rejected nor overwritten — so the
at-most-one-connection-per-unordered-pair-and-type invariant holds exactly
when the operation sequence never repeats a pair with the same transport type;
connections of different types on one pair always coexist as parallel
edges. -/
theorem connection_invariant_amended :
    (∀ ops : List Op, (runOps Network.empty ops).connections
        = opsConns ["Metro", "Bus", "Train"] ops) ∧
    (∀ ops : List Op, opsNoDup ops = true →
        noDup (runOps Network.empty ops).connections = true) := by
  constructor
  · intro ops
    rw [runOps_connections]
    rw [show Network.empty.connections = [] from rfl]
    rw [show Network.empty.transport_types = ["Metro", "Bus", "Train"] from rfl]
    rw [List.nil_append]
  · intro ops h
    rw [runOps_connections]
    rw [show Network.empty.connections = [] from rfl]
    rw [show Network.empty.transport_types = ["Metro", "Bus", "Train"] from rfl]
    rw [List.nil_append]
    exact opsConns_noDup _ ops h

/-- C9 (witness): the sample network's operation sequence never repeats a
pair-and-type, so its connection list satisfies the invariant. -/
theorem connection_invariant_amended_witness :
    noDup (runOps Network.empty sampleOps).connections = true :=
  connection_invariant_amended.2 sampleOps (by decide)
